import Mathlib

/-!
Verification development for the product-discovery assistant pipeline
(`assistant_graph.py`, `rag/search.py`, `mcp_server/server.py`,
`mcp_server/web_search.py`).

Conventions of the shallow embedding:
* Python floats are modeled as exact rationals (`ℚ`); the literal
  thresholds 0.55 and 0.45 are modeled as `mkRat 11 20` and `mkRat 9 20`.
* Python strings are modeled as `String` together with `List Char`
  operations (`String.data`), because only character-list operations
  reduce in the kernel.
* Python dictionaries coming from JSON are modeled as structures with
  `Option` fields (`none` = key absent / value `null`).
* External calls (language model, vector index, HTTP tools) are inputs:
  each pipeline node takes the response it would receive as a parameter
  and reports how many calls it performed.
-/

/-- Python `str.lower` on a character list (ASCII-faithful). -/
def py_lower (l : List Char) : List Char := l.map Char.toLower

/-- Python `str.strip` on a character list (whitespace both ends). -/
def py_strip (l : List Char) : List Char :=
  ((l.dropWhile Char.isWhitespace).reverse.dropWhile Char.isWhitespace).reverse

/-- Python `needle in hay` substring test on character lists. -/
def str_contains : List Char → List Char → Bool
  | needle, [] => needle.isEmpty
  | needle, c :: t => needle.isPrefixOf (c :: t) || str_contains needle t

/-!  difflib.SequenceMatcher (as used with `SequenceMatcher(None, a, b)`):
no explicit junk, and all inputs compared by the code are far below the
200-element autojunk cutoff, so the junk set is empty.  `ratio` is
`2*M/T` where `M` is the total size of the matching blocks and `T` the
total length. -/

/-- Ascending positions of a character in `b`: difflib's `b2j[c]`. -/
def char_positions (b : List Char) (c : Char) : List Nat :=
  (List.range b.length).filter (fun j => b.getD j ' ' == c)

/-- Result triple of difflib's `find_longest_match`. -/
structure FLM where
  besti : Nat
  bestj : Nat
  bestsize : Nat
  deriving DecidableEq

/-- Lookup in the `j2len` row dictionary, defaulting to 0 (`j2len.get(j-1, 0)`). -/
def lookupJ (m : List (Nat × Nat)) (j : Nat) : Nat :=
  match m.find? (fun p => p.1 == j) with
  | some p => p.2
  | none => 0

/-- One inner-loop step of `find_longest_match` for position `j` of `a[i]`
inside `b`.  Python `break`s once `j ≥ bhi`; since positions come in
ascending order, skipping them is equivalent. -/
def flm_row_step (blo bhi i : Nat) (prev : List (Nat × Nat))
    (acc : List (Nat × Nat) × FLM) (j : Nat) : List (Nat × Nat) × FLM :=
  if j < blo ∨ bhi ≤ j then acc
  else
    let k := (if j = 0 then 0 else lookupJ prev (j - 1)) + 1
    let best := acc.2
    let best : FLM := if best.bestsize < k then ⟨i + 1 - k, j + 1 - k, k⟩ else best
    ((j, k) :: acc.1, best)

/-- Extension of the best match to the left over equal characters
(difflib's first `while` loop; the junk variant is vacuous here). -/
def ext_left (a b : List Char) (alo blo : Nat) : Nat → Nat → Nat → Nat
  | 0, _, _ => 0
  | fuel + 1, bi, bj =>
    if alo < bi ∧ blo < bj ∧ a.getD (bi - 1) ' ' = b.getD (bj - 1) ' ' then
      1 + ext_left a b alo blo fuel (bi - 1) (bj - 1)
    else 0

/-- Extension of the best match to the right over equal characters
(difflib's second `while` loop; the junk variant is vacuous here). -/
def ext_right (a b : List Char) (ahi bhi : Nat) : Nat → Nat → Nat → Nat → Nat
  | 0, _, _, _ => 0
  | fuel + 1, bi, bj, bs =>
    if bi + bs < ahi ∧ bj + bs < bhi ∧ a.getD (bi + bs) ' ' = b.getD (bj + bs) ' ' then
      1 + ext_right a b ahi bhi fuel bi bj (bs + 1)
    else 0

/-- difflib's `find_longest_match` on `a[alo:ahi]` × `b[blo:bhi]` with an
empty junk set: the `j2len` dictionary loop followed by the two
extension loops. -/
def find_longest_match (a b : List Char) (alo ahi blo bhi : Nat) : FLM :=
  let init : List (Nat × Nat) × FLM := ([], ⟨alo, blo, 0⟩)
  let res := (List.range' alo (ahi - alo)).foldl
    (fun acc i =>
      (char_positions b (a.getD i ' ')).foldl (flm_row_step blo bhi i acc.1) ([], acc.2))
    init
  let best := res.2
  let dl := ext_left a b alo blo best.besti best.besti best.bestj
  let best : FLM := ⟨best.besti - dl, best.bestj - dl, best.bestsize + dl⟩
  let dr := ext_right a b ahi bhi ahi best.besti best.bestj best.bestsize
  ⟨best.besti, best.bestj, best.bestsize + dr⟩

/-- Total size of all matching blocks (difflib's `get_matching_blocks`
divide-and-conquer; the fuel bounds the recursion depth and
`total length + 1` always suffices). -/
def match_total (a b : List Char) : Nat → Nat → Nat → Nat → Nat → Nat
  | 0, _, _, _, _ => 0
  | fuel + 1, alo, ahi, blo, bhi =>
    let m := find_longest_match a b alo ahi blo bhi
    if m.bestsize = 0 then 0
    else
      match_total a b fuel alo m.besti blo m.bestj + m.bestsize +
        match_total a b fuel (m.besti + m.bestsize) ahi (m.bestj + m.bestsize) bhi

/-- difflib's `SequenceMatcher.ratio()`: `2*M/T`, and 1 when both
sequences are empty (difflib's `_calculate_ratio`). -/
def seq_ratio (a b : List Char) : ℚ :=
  let t := a.length + b.length
  if t = 0 then 1 else mkRat (2 * match_total a b (t + 1) 0 a.length 0 b.length) t

/-- The answerer's `fuzzy(a, b)`: ratio of the lowercased strings
(`assistant_graph.py`). -/
def fuzzy (a b : String) : ℚ := seq_ratio (py_lower a.data) (py_lower b.data)

/-- `mcp_server/server.py` `fuzzy_match` with its default threshold 0.45. -/
def fuzzy_match (a b : String) : Bool :=
  if a = "" ∨ b = "" then false
  else decide (mkRat 9 20 ≤ seq_ratio (py_lower a.data) (py_lower b.data))

/-!  Python's `sorted` is a stable sort.  We model it as the stable
insertion sort: an element is inserted after every already-placed
element whose key is not strictly greater, which yields exactly the
output of a stable ascending sort by the same key. -/

/-- Stable insertion of `a` into a sorted list: `a` goes before the first
element `b` with `¬ lt b a` (so equal keys keep the earlier element first). -/
def py_insert (lt : α → α → Bool) (a : α) : List α → List α
  | [] => [a]
  | b :: l => if lt b a then b :: py_insert lt a l else a :: b :: l

/-- Python `sorted(l, key=...)` as a stable insertion sort; `lt x y` must
be "key of x is strictly less than key of y". -/
def py_sorted (lt : α → α → Bool) : List α → List α
  | [] => []
  | a :: l => py_insert lt a (py_sorted lt l)

theorem mem_py_insert (lt : α → α → Bool) (a x : α) (l : List α) :
    x ∈ py_insert lt a l ↔ x = a ∨ x ∈ l := by
  induction l with
  | nil => simp [py_insert]
  | cons b t ih =>
    by_cases h : lt b a = true
    · simp only [py_insert, if_pos h, List.mem_cons, ih]
      tauto
    · simp only [py_insert, if_neg h, List.mem_cons]

theorem perm_py_insert (lt : α → α → Bool) (a : α) (l : List α) :
    (py_insert lt a l).Perm (a :: l) := by
  induction l with
  | nil => simp [py_insert]
  | cons b t ih =>
    by_cases h : lt b a = true
    · simp only [py_insert, if_pos h]
      exact (ih.cons b).trans (List.Perm.swap a b t)
    · simp [py_insert, if_neg h]

theorem perm_py_sorted (lt : α → α → Bool) (l : List α) :
    (py_sorted lt l).Perm l := by
  induction l with
  | nil => simp [py_sorted]
  | cons a t ih =>
    exact (perm_py_insert lt a (py_sorted lt t)).trans (ih.cons a)

theorem map_py_insert (f : α → β) (lt : β → β → Bool) (a : α) (l : List α) :
    (py_insert (fun x y => lt (f x) (f y)) a l).map f = py_insert lt (f a) (l.map f) := by
  induction l with
  | nil => simp [py_insert]
  | cons b t ih =>
    by_cases h : lt (f b) (f a) = true
    · simp [py_insert, if_pos h, ih]
    · simp [py_insert, if_neg h]

theorem map_py_sorted (f : α → β) (lt : β → β → Bool) (l : List α) :
    (py_sorted (fun x y => lt (f x) (f y)) l).map f = py_sorted lt (l.map f) := by
  induction l with
  | nil => simp [py_sorted]
  | cons a t ih => simp [py_sorted, map_py_insert, ih]

/-!  rag/search.py : the hybrid retrieval engine.  The vector-index query
(`collection.query`) is an external service; its zipped response rows
`(id, metadata, distance)` are the input of `search_products`.  Metadata
values can be absent (`meta.get(..., None)`), hence `Option` fields. -/

/-- One `(id, metadata, distance)` row returned by the Chroma query. -/
structure RawHit where
  pid : String
  title : Option String
  price : Option ℚ
  rating : Option ℚ
  brand : Option String
  subcategory : Option String
  category : Option String
  features : Option String
  ingredients : Option String
  product_url : Option String
  image_url : Option String
  dist : ℚ
  deriving DecidableEq

/-- Candidate dictionary built inside `search_products`, still carrying
the internal `_distance`. -/
structure Candidate where
  id : String
  title : String
  price : Option ℚ
  rating : ℚ
  brand : String
  subcategory : String
  category : String
  features : String
  ingredients : String
  product_url : String
  image_url : String
  doc_id : String
  dist : ℚ
  deriving DecidableEq

/-- Result dictionary after `c.pop("_distance", None)`: what
`search_products` returns to its caller. -/
structure Product where
  id : String
  title : String
  price : Option ℚ
  rating : ℚ
  brand : String
  subcategory : String
  category : String
  features : String
  ingredients : String
  product_url : String
  image_url : String
  doc_id : String
  deriving DecidableEq

/-- Python truthiness of an optional string (`None` and `""` are falsy). -/
def truthy_str : Option String → Bool
  | none => false
  | some s => s ≠ ""

/-- Price-ceiling filter of `search_products`: with a budget, a row is
kept only if its price is present, not negative, and not above the
budget; without a budget every price passes. -/
def row_passes_price (max_price : Option ℚ) (price : Option ℚ) : Bool :=
  match max_price with
  | none => true
  | some b =>
    match price with
    | none => false
    | some p => !(decide (p < 0)) && !(decide (b < p))

/-- Brand / subcategory metadata filter: `if brand and brand.lower() not
in brand_val.lower(): continue`. -/
def row_passes_sub (filt : Option String) (val : String) : Bool :=
  !(truthy_str filt && !(str_contains (py_lower (filt.getD "").data) (py_lower val.data)))

/-- The rating sentinel conversion of `search_products`: `None` (and the
-1 placeholders stored by `build_index_from_clean_df`) become `0.0`. -/
def convert_rating : Option ℚ → ℚ
  | none => 0
  | some r => if r = -1 then 0 else r

/-- Candidate dictionary assembled by `search_products` for one row. -/
def mk_candidate (row : RawHit) : Candidate :=
  { id := row.pid
    title := row.title.getD ""
    price := row.price
    rating := convert_rating row.rating
    brand := row.brand.getD ""
    subcategory := row.subcategory.getD ""
    category := row.category.getD ""
    features := row.features.getD ""
    ingredients := row.ingredients.getD ""
    product_url := row.product_url.getD ""
    image_url := row.image_url.getD ""
    doc_id := "products::" ++ row.pid
    dist := row.dist }

/-- Filter loop of `search_products`: a row survives the price, brand and
subcategory filters or is skipped (`continue`). -/
def build_candidates (max_price : Option ℚ) (brand subcategory_filter : Option String)
    (rows : List RawHit) : List Candidate :=
  rows.filterMap (fun row =>
    if row_passes_price max_price row.price
        && row_passes_sub brand (row.brand.getD "")
        && row_passes_sub subcategory_filter (row.subcategory.getD "")
    then some (mk_candidate row) else none)

/-- Lexicographic strict order on the hybrid composite key. -/
def key_lt (x y : ℚ × ℚ × ℚ) : Prop :=
  x.1 < y.1 ∨ (x.1 = y.1 ∧ (x.2.1 < y.2.1 ∨ (x.2.1 = y.2.1 ∧ x.2.2 < y.2.2)))

instance key_lt_dec (x y : ℚ × ℚ × ℚ) : Decidable (key_lt x y) := by
  unfold key_lt; infer_instance

/-- The `hybrid` composite sort key `(distance, -rating, price or 1e9)`.
An absent price is replaced by the literal `1e9`, exactly as in the code. -/
def hybrid_key (c : Candidate) : ℚ × ℚ × ℚ :=
  (c.dist, -c.rating, c.price.getD 1000000000)

/-- Strict comparison used when modeling `sorted(candidates, key=hybrid_key)`. -/
def hybrid_lt (x y : Candidate) : Bool := decide (key_lt (hybrid_key x) (hybrid_key y))

/-- The `rating_price` sort key `(-(rating or 0), price or 1e9)`. -/
def rating_price_key (c : Candidate) : ℚ × ℚ :=
  (-c.rating, c.price.getD 1000000000)

/-- Strict lexicographic comparison for the `rating_price` strategy. -/
def rating_price_lt (x y : Candidate) : Bool :=
  decide ((rating_price_key x).1 < (rating_price_key y).1 ∨
    ((rating_price_key x).1 = (rating_price_key y).1 ∧
      (rating_price_key x).2 < (rating_price_key y).2))

/-- Reranking dispatch of `search_products` on the `sort_by` string
(anything but `"similarity"` and `"rating_price"` selects `hybrid`). -/
def rerank (sort_by : String) (candidates : List Candidate) : List Candidate :=
  if sort_by = "similarity" then
    py_sorted (fun x y => decide (x.dist < y.dist)) candidates
  else if sort_by = "rating_price" then
    py_sorted rating_price_lt candidates
  else
    py_sorted hybrid_lt candidates

/-- Dropping the internal `_distance` key before returning. -/
def to_product (c : Candidate) : Product :=
  { id := c.id, title := c.title, price := c.price, rating := c.rating,
    brand := c.brand, subcategory := c.subcategory, category := c.category,
    features := c.features, ingredients := c.ingredients,
    product_url := c.product_url, image_url := c.image_url, doc_id := c.doc_id }

/-- `rag/search.py` `search_products`: filter, rerank, truncate to
`max_results`, strip the internal distance. -/
def search_products (rows : List RawHit) (max_results : Nat) (max_price : Option ℚ)
    (brand subcategory_filter : Option String) (sort_by : String) : List Product :=
  let candidates := build_candidates max_price brand subcategory_filter rows
  if candidates.isEmpty then []
  else ((rerank sort_by candidates).take max_results).map to_product

/-- The category value the MCP endpoint tests: `p.get("subcategory", "")
or p.get("category", "")` (falsy-or). -/
def prod_cat_of (p : Product) : String :=
  if p.subcategory ≠ "" then p.subcategory else p.category

/-- Post-filter of `mcp_rag_search`: fuzzy brand check (an empty product
brand passes). -/
def keep_by_brand (brand : Option String) (p : Product) : Bool :=
  !(truthy_str brand && p.brand ≠ "" && !fuzzy_match p.brand (brand.getD ""))

/-- Post-filter of `mcp_rag_search`: fuzzy category check against the
subcategory, falling back to the category (an empty value passes). -/
def keep_by_category (category : Option String) (p : Product) : Bool :=
  !(truthy_str category && prod_cat_of p ≠ "" && !fuzzy_match (prod_cat_of p) (category.getD ""))

/-- `mcp_server/server.py` `mcp_rag_search`: over-fetch 5× through
`search_products` (budget only), fuzzy brand/category post-filter, clip
to `max_results`. -/
def mcp_rag_search (rows : List RawHit) (budget : Option ℚ) (brand category : Option String)
    (max_results : Nat) : List Product :=
  let raw := search_products rows (max_results * 5) budget none none "hybrid"
  ((raw.filter (fun p => keep_by_brand brand p && keep_by_category category p)).take max_results)

/-!  mcp_server/web_search.py : only the Serper response normalization is
algorithmic (cache, rate limiter and HTTP transport are external
effects).  Each organic item is mapped to a result whose `price` and
`availability` are hard-coded `None`. -/

/-- One item of the Serper `organic` array. -/
structure SerperItem where
  title : Option String
  link : Option String
  snippet : Option String
  deriving DecidableEq

/-- Normalized web result (`web_search.py` payload entry and the dict the
answerer's merge loop reads). -/
structure WebResult where
  title : String
  url : String
  snippet : String
  price : Option ℚ
  availability : Option String
  deriving DecidableEq

/-- The normalization loop of `web_search`: `price` and `availability`
are hard-coded to `None`. -/
def web_search_results (organic : List SerperItem) : List WebResult :=
  organic.map (fun it =>
    { title := it.title.getD "", url := it.link.getD "", snippet := it.snippet.getD "",
      price := none, availability := none })

/-!  assistant_graph.py : state, router, planner, retriever, answerer.
Each node takes the response an external call would return as an input
and reports the number of external calls in a `Calls` record. -/

/-- Python truthiness of an optional number (`None` and `0` are falsy). -/
def truthy_num : Option ℚ → Bool
  | none => false
  | some q => q ≠ 0

/-- Constraints dictionary extracted by the router. -/
structure ConstraintsD where
  budget : Option ℚ
  brand : Option String
  material : Option String
  category : Option String
  deriving DecidableEq

/-- The empty constraints dictionary `{}`. -/
def no_constraints : ConstraintsD := ⟨none, none, none, none⟩

/-- Intent dictionary as stored in the state; `none` models an absent
key, so `intent.get("intent_type")` is just the field. -/
structure IntentD where
  intent_type : Option String
  product_type : Option String
  constraints : Option ConstraintsD
  needs_live_price : Option Bool
  deriving DecidableEq

/-- The initial `intent = {}` and the `{"error": ..., "raw": ...}` dict
produced on a router JSON-parse failure: every `get` returns `None`. -/
def empty_intent : IntentD := ⟨none, none, none, none⟩

/-- Plan dictionary; a parse failure stores `{"error": ..., "raw": ...}`,
whose `get("tools", [])` is `[]`, modeled by `tools := []` with the
error marker set. -/
structure PlanD where
  tools : List String
  fields_needed : List String
  conflict_policy : Option String
  err : Option String
  deriving DecidableEq

/-- The initial `plan = {}`. -/
def empty_plan : PlanD := ⟨[], [], none, none⟩

/-- The plan stored by `planner_node` when `json.loads` fails. -/
def error_plan : PlanD := ⟨[], [], none, some "JSON parsing failed"⟩

/-- Normalized product row for the UI (`answerer_node` step 4). -/
structure NormProduct where
  id : String
  title : String
  brand : String
  price : Option ℚ
  rating : ℚ
  ingredients : String
  features : String
  product_url : String
  image_url : String
  doc_id : String
  deriving DecidableEq

/-- The shared LangGraph `State` dictionary. -/
structure PState where
  query : String
  intent : IntentD
  constraints : ConstraintsD
  plan : PlanD
  rag_results : List Product
  web_results : List WebResult
  final_answer : String
  products : List NormProduct
  deriving DecidableEq

/-- Counters for the external calls a node performs, plus whether the
cross-source merge loop ran. -/
structure Calls where
  llm : Nat
  rag : Nat
  web : Nat
  merge : Nat
  deriving DecidableEq

/-- No external activity. -/
def no_calls : Calls := ⟨0, 0, 0, 0⟩

/-- The fixed greeting lexicon of `router_node`. -/
def simple_greetings : List String :=
  ["hi", "hello", "hey", "good morning", "good afternoon", "good evening"]

/-- The fixed greeting answer text. -/
def greeting_text : String := "Hello! What product can I help you find today?"

/-- The fixed out-of-domain answer text. -/
def out_of_domain_text : String :=
  "Sorry — my product database currently focuses on Toys & Games. " ++
    "I might not have good recommendations for this category. " ++
    "Try asking for a toy, puzzle, board game, LEGO set, or kids item."

/-- The fallback answer when no RAG result survived. -/
def no_results_text : String :=
  "Sorry, I couldn\x27t find matching products. " ++
    "Try adjusting your budget or adding more details."

/-- The Toys & Games allow-list (`ALLOWED_CATEGORIES`). -/
def allowed_categories : List String :=
  ["toy", "toys", "games", "game", "board game", "board games",
    "puzzle", "puzzles", "action figure", "action figures",
    "kids toy", "children toy", "plush", "lego"]

/-- The hard-coded greeting fast path: the stripped, lowercased query
equals a lexicon entry or starts with the entry followed by a comma. -/
def greeting_fast_match (query : String) : Bool :=
  let lq := py_lower (py_strip query.data)
  simple_greetings.any (fun g => lq == g.data || (g.data ++ [',']).isPrefixOf lq)

/-- Intent stored on the greeting branches: `{"intent_type": "greeting"}`. -/
def greeting_intent : IntentD := ⟨some "greeting", none, none, none⟩

/-- The lowercased `product_type` the router extracts:
`(intent.get("product_type") or "").lower()`. -/
def product_type_of (intent : IntentD) : List Char :=
  py_lower (intent.product_type.getD "").data

/-- The out-of-domain test: a non-empty product type containing no
allow-listed keyword as a substring. -/
def out_of_domain_check (intent : IntentD) : Bool :=
  product_type_of intent ≠ [] &&
    !(allowed_categories.any (fun k => str_contains k.data (product_type_of intent)))

/-- `router_node`.  `llm_resp` is the parsed JSON of the classifier
response (`none` = `json.loads` failed); it is consumed — and counted —
only when the fast path misses. -/
def router_node (s : PState) (llm_resp : Option IntentD) : PState × Calls :=
  if greeting_fast_match s.query then
    ({ s with intent := greeting_intent, final_answer := greeting_text, products := [] },
      no_calls)
  else
    let intent := match llm_resp with
      | some r => r
      | none => empty_intent
    if intent.intent_type = some "greeting" then
      ({ s with intent := greeting_intent, final_answer := greeting_text, products := [] },
        { no_calls with llm := 1 })
    else if out_of_domain_check intent then
      ({ s with
          intent := ⟨some "out_of_domain", some (String.mk (product_type_of intent)),
            none, none⟩,
          final_answer := out_of_domain_text, products := [] },
        { no_calls with llm := 1 })
    else
      ({ s with intent := intent, constraints := intent.constraints.getD no_constraints },
        { no_calls with llm := 1 })

/-- `planner_node`.  For non-product intents the state passes through
with no call; otherwise the planner model is invoked and an unparsable
response degrades to the error plan. -/
def planner_node (s : PState) (llm_resp : Option PlanD) : PState × Calls :=
  if s.intent.intent_type ≠ some "product_query" then (s, no_calls)
  else
    let plan := match llm_resp with
      | some p => p
      | none => error_plan
    ({ s with plan := plan }, { no_calls with llm := 1 })

/-- `retriever_node`.  `rag_resp` / `web_resp` are the MCP tool responses;
each tool is called exactly when its name is in `plan.tools`. -/
def retriever_node (s : PState) (rag_resp : List Product) (web_resp : List WebResult) :
    PState × Calls :=
  if s.intent.intent_type ≠ some "product_query" then (s, no_calls)
  else
    let tools := s.plan.tools
    let s := if tools.contains "rag.search" then { s with rag_results := rag_resp } else s
    let s := if tools.contains "web.search" then { s with web_results := web_resp } else s
    (s, { no_calls with
            rag := if tools.contains "rag.search" then 1 else 0,
            web := if tools.contains "web.search" then 1 else 0 })

/-- The answerer's scoring function: rating, minus 2 when a (truthy)
budget and a (truthy) price exist with the price above the budget. -/
def score (cons : ConstraintsD) (p : Product) : ℚ :=
  if truthy_num cons.budget ∧ truthy_num p.price ∧
      cons.budget.getD 0 < p.price.getD 0 then p.rating - 2 else p.rating

/-- Descending stable comparison for `sorted(rag, key=score, reverse=True)`. -/
def score_desc_lt (cons : ConstraintsD) (x y : Product) : Bool :=
  decide (score cons y < score cons x)

/-- The merge threshold 0.55 of the answerer (exact-rational model of the
Python float literal). -/
def merge_threshold : ℚ := mkRat 11 20

/-- Condition under which one web result overwrites the candidate price:
fuzzy title ratio strictly above 0.55 and a truthy web price. -/
def merge_hit (p : Product) (w : WebResult) : Bool :=
  decide (merge_threshold < fuzzy p.title w.title) && truthy_num w.price

/-- Cross-source merge for one candidate: the inner `for w in web` loop,
each hit overwriting `p["price"]` in turn. -/
def merge_web_price (p : Product) (web : List WebResult) : Product :=
  { p with price := web.foldl (fun pr w => if merge_hit p w then w.price else pr) p.price }

/-- `rag/search.py` `normalize_url`. -/
def normalize_url (url : String) : String :=
  if url = "" then ""
  else
    let u := String.mk (py_strip url.data)
    if "http://".data.isPrefixOf u.data ∨ "https://".data.isPrefixOf u.data then u
    else "https://" ++ u

/-- UI normalization of one merged product (`answerer_node` step 4). -/
def normalize_product (p : Product) : NormProduct :=
  { id := p.id, title := p.title, brand := p.brand, price := p.price, rating := p.rating,
    ingredients := p.ingredients, features := p.features,
    product_url := normalize_url p.product_url, image_url := normalize_url p.image_url,
    doc_id := p.doc_id }

/-- `answerer_node`.  `llm_resp` is the answer-synthesis model output,
consumed — and counted — only on the full product path; `merge` counts
whether the cross-source merge loop ran. -/
def answerer_node (s : PState) (llm_resp : String) : PState × Calls :=
  if s.intent.intent_type = some "greeting" ∨ s.intent.intent_type = some "out_of_domain" then
    ({ s with products := [] }, no_calls)
  else if s.rag_results.isEmpty then
    ({ s with products := [], final_answer := no_results_text }, no_calls)
  else
    let top3 := (py_sorted (score_desc_lt s.constraints) s.rag_results).take 3
    let merged := top3.map (fun p => merge_web_price p s.web_results)
    let normalized := merged.map normalize_product
    ({ s with
        products := normalized
        final_answer := String.mk (py_strip llm_resp.data) },
      { no_calls with llm := 1, merge := 1 })

/-!  Spec-side definitions.  These follow the SPEC's wording (not the
code) and exist only to be compared against the embedded code. -/

/-- Spec-side (§4.5): the single best-scoring web result for a candidate,
by fuzzy title ratio (earlier result wins ties). -/
def spec_best_web (p : Product) : List WebResult → Option WebResult
  | [] => none
  | w :: ws =>
    match spec_best_web p ws with
    | none => some w
    | some b => if fuzzy p.title b.title ≤ fuzzy p.title w.title then some w else some b

/-- Spec-side (§4.5): overwrite the price iff the best-scoring result
clears the threshold, carries a non-null price, and the policy is
`WebOverwritesCatalog`; otherwise leave the candidate unchanged. -/
def spec_merge (p : Product) (web : List WebResult) (policy : String) : Product :=
  match spec_best_web p web with
  | none => p
  | some b =>
    if merge_threshold < fuzzy p.title b.title ∧ b.price ≠ none ∧
        policy = "WebOverwritesCatalog" then
      { p with price := b.price }
    else p

theorem find_last_of_foldl_overwrite (p : Product) (web : List WebResult) (pr0 : Option ℚ) :
    web.foldl (fun pr w => if merge_hit p w then w.price else pr) pr0 =
      (match web.reverse.find? (merge_hit p) with
        | some w => w.price
        | none => pr0) := by
  induction web generalizing pr0 with
  | nil => rfl
  | cons w ws ih =>
    show ws.foldl _ (if merge_hit p w then w.price else pr0) = _
    rw [ih]
    have happ : (w :: ws).reverse = ws.reverse ++ [w] := by simp
    rw [happ, List.find?_append]
    cases hfind : ws.reverse.find? (merge_hit p) with
    | some x => simp [hfind]
    | none =>
      by_cases hw : merge_hit p w = true
      · simp [hfind, hw, List.find?]
      · simp [hfind, hw, List.find?]

/-- C10: every result produced by the `web_search` normalization has
`price = None`, so the cross-source merge condition — which needs a
truthy web price — never fires and no catalog price is ever overwritten
by a web price. -/
theorem C10_web_price_always_none (organic : List SerperItem) (p : Product) :
    ((web_search_results organic).all (fun w => w.price.isNone)) = true ∧
      merge_web_price p (web_search_results organic) = p := by
  constructor
  · simp [web_search_results, List.all_eq_true]
  · unfold merge_web_price
    have h : ∀ (items : List SerperItem) (acc : Option ℚ),
        (web_search_results items).foldl
          (fun pr w => if merge_hit p w then w.price else pr) acc = acc := by
      intro items
      induction items with
      | nil => intro acc; rfl
      | cons it t ih =>
        intro acc
        have hmiss : merge_hit p
            { title := it.title.getD "", url := it.link.getD "",
              snippet := it.snippet.getD "", price := none, availability := none } = false := by
          simp [merge_hit, truthy_num]
        simpa [web_search_results, hmiss] using ih acc
    rw [h organic p.price]

/-- C4: the cross-source merge changes at most the price field — every
other field of the candidate is identical before and after the merge
step. -/
theorem C4_merge_price_only (p : Product) (web : List WebResult) :
    (merge_web_price p web).id = p.id ∧
    (merge_web_price p web).title = p.title ∧
    (merge_web_price p web).brand = p.brand ∧
    (merge_web_price p web).rating = p.rating ∧
    (merge_web_price p web).subcategory = p.subcategory ∧
    (merge_web_price p web).category = p.category ∧
    (merge_web_price p web).features = p.features ∧
    (merge_web_price p web).ingredients = p.ingredients ∧
    (merge_web_price p web).product_url = p.product_url ∧
    (merge_web_price p web).image_url = p.image_url ∧
    (merge_web_price p web).doc_id = p.doc_id :=
  ⟨rfl, rfl, rfl, rfl, rfl, rfl, rfl, rfl, rfl, rfl, rfl⟩

/-- Candidate for the merge counterexample. -/
def c3_prod : Product :=
  { id := "c1", title := "lego set", price := some 5, rating := 4, brand := "",
    subcategory := "", category := "", features := "", ingredients := "",
    product_url := "", image_url := "", doc_id := "products::c1" }

/-- Two web results: the best title match (ratio 1) has a null price, a
weaker match (ratio 16/17) carries a price. -/
def c3_web : List WebResult :=
  [{ title := "lego set", url := "u1", snippet := "", price := none, availability := none },
   { title := "lego sets", url := "u2", snippet := "", price := some 12, availability := none }]

/-- C3 counterexample: the claim says the price is overwritten iff the
single best-scoring web result (here the exact-title one, with a null
price) qualifies, so the candidate should keep price 5 under either
policy; the code instead lets every above-threshold result with a truthy
price overwrite in turn and ends at 12, never consulting the policy. -/
theorem C3_counterexample :
    (merge_web_price c3_prod c3_web).price = some 12 ∧
    (spec_merge c3_prod c3_web "WebOverwritesCatalog").price = some 5 ∧
    (spec_merge c3_prod c3_web "PreferCatalog").price = some 5 := by
  decide

/-- C3 (amended): the merge overwrites the candidate's price once per web
result — in list order — whose title-similarity ratio strictly exceeds
0.55 and whose price is truthy; the final price is that of the LAST such
result (the conflict policy is never consulted), and if no result
qualifies the price, including absence, is unchanged. -/
theorem C3_merge_last_match (p : Product) (web : List WebResult) :
    merge_web_price p web =
      { p with price :=
          (match web.reverse.find? (merge_hit p) with
            | some w => w.price
            | none => p.price) } := by
  unfold merge_web_price
  rw [find_last_of_foldl_overwrite]

/-!  Hybrid-ranking order facts for C7. -/

theorem key_lt_trichotomy (x y : ℚ × ℚ × ℚ) : key_lt x y ∨ x = y ∨ key_lt y x := by
  obtain ⟨x1, x2, x3⟩ := x
  obtain ⟨y1, y2, y3⟩ := y
  rcases lt_trichotomy x1 y1 with h1 | h1 | h1
  · exact Or.inl (Or.inl h1)
  · rcases lt_trichotomy x2 y2 with h2 | h2 | h2
    · exact Or.inl (Or.inr ⟨h1, Or.inl h2⟩)
    · rcases lt_trichotomy x3 y3 with h3 | h3 | h3
      · exact Or.inl (Or.inr ⟨h1, Or.inr ⟨h2, h3⟩⟩)
      · subst h1; subst h2; subst h3; exact Or.inr (Or.inl rfl)
      · exact Or.inr (Or.inr (Or.inr ⟨h1.symm, Or.inr ⟨h2.symm, h3⟩⟩))
    · exact Or.inr (Or.inr (Or.inr ⟨h1.symm, Or.inl h2⟩))
  · exact Or.inr (Or.inr (Or.inl h1))

theorem key_lt_trans {x y z : ℚ × ℚ × ℚ} (hxy : key_lt x y) (hyz : key_lt y z) :
    key_lt x z := by
  obtain ⟨x1, x2, x3⟩ := x
  obtain ⟨y1, y2, y3⟩ := y
  obtain ⟨z1, z2, z3⟩ := z
  rcases hxy with h1 | ⟨h1, h2⟩
  · rcases hyz with g1 | ⟨g1, _⟩
    · exact Or.inl (h1.trans g1)
    · exact Or.inl (g1 ▸ h1)
  · rcases hyz with g1 | ⟨g1, g2⟩
    · exact Or.inl (h1 ▸ g1)
    · refine Or.inr ⟨h1.trans g1, ?_⟩
      rcases h2 with h2 | ⟨h2, h3⟩
      · rcases g2 with g2 | ⟨g2, _⟩
        · exact Or.inl (h2.trans g2)
        · exact Or.inl (g2 ▸ h2)
      · rcases g2 with g2 | ⟨g2, g3⟩
        · exact Or.inl (h2 ▸ g2)
        · exact Or.inr ⟨h2.trans g2, h3.trans g3⟩

/-- Stability order for the indexed hybrid sort: strictly smaller key, or
equal keys in original (retrieval) order. -/
def stable_key_lt (a b : Nat × Candidate) : Prop :=
  key_lt (hybrid_key a.2) (hybrid_key b.2) ∨
    (hybrid_key a.2 = hybrid_key b.2 ∧ a.1 < b.1)

/-- The hybrid sort applied to index-tagged candidates (comparison reads
only the candidate, exactly as the code's key function does). -/
def hybrid_sorted_idx (l : List (Nat × Candidate)) : List (Nat × Candidate) :=
  py_sorted (fun x y => hybrid_lt x.2 y.2) l

theorem pairwise_py_insert_idx (a : Nat × Candidate) (l : List (Nat × Candidate))
    (hl : l.Pairwise stable_key_lt) (ha : ∀ b ∈ l, a.1 < b.1) :
    (py_insert (fun x y => hybrid_lt x.2 y.2) a l).Pairwise stable_key_lt := by
  induction l with
  | nil => simp [py_insert]
  | cons b t ih =>
    rcases List.pairwise_cons.mp hl with ⟨hbt, ht⟩
    by_cases h : hybrid_lt b.2 a.2 = true
    · rw [py_insert, if_pos h]
      refine List.pairwise_cons.mpr ⟨?_, ih ht (fun c hc => ha c (List.mem_cons_of_mem b hc))⟩
      intro c hc
      rcases (mem_py_insert _ a c t).mp hc with rfl | hct
      · exact Or.inl (of_decide_eq_true h)
      · exact hbt c hct
    · rw [py_insert, if_neg h]
      have hnlt : ¬ key_lt (hybrid_key b.2) (hybrid_key a.2) := by
        simpa [hybrid_lt] using h
      have hab : stable_key_lt a b := by
        rcases key_lt_trichotomy (hybrid_key a.2) (hybrid_key b.2) with h1 | h1 | h1
        · exact Or.inl h1
        · exact Or.inr ⟨h1, ha b (List.mem_cons_self b t)⟩
        · exact absurd h1 hnlt
      refine List.pairwise_cons.mpr ⟨?_, hl⟩
      intro c hc
      rcases List.mem_cons.mp hc with rfl | hct
      · exact hab
      · rcases hbt c hct with hbc | ⟨hbc, _⟩
        · rcases hab with h2 | ⟨h2, _⟩
          · exact Or.inl (key_lt_trans h2 hbc)
          · exact Or.inl (h2 ▸ hbc)
        · rcases hab with h2 | ⟨h2, _⟩
          · exact Or.inl (hbc ▸ h2)
          · exact Or.inr ⟨h2.trans hbc, ha c (List.mem_cons_of_mem b hct)⟩

theorem pairwise_hybrid_sorted_idx (l : List (Nat × Candidate))
    (h : l.Pairwise (fun a b => a.1 < b.1)) :
    (hybrid_sorted_idx l).Pairwise stable_key_lt := by
  induction l with
  | nil => simp [hybrid_sorted_idx, py_sorted]
  | cons a t ih =>
    rcases List.pairwise_cons.mp h with ⟨hat, ht⟩
    refine pairwise_py_insert_idx a _ (ih ht) ?_
    intro b hb
    exact hat b ((perm_py_sorted _ t).subset hb)

theorem le_fst_of_mem_enumFrom {b : Nat × α} {n : Nat} {l : List α}
    (h : b ∈ List.enumFrom n l) : n ≤ b.1 := by
  induction l generalizing n with
  | nil => simp [List.enumFrom] at h
  | cons x t ih =>
    rcases List.mem_cons.mp h with rfl | h2
    · exact Nat.le_refl n
    · exact Nat.le_of_succ_le (ih h2)

theorem pairwise_fst_lt_enumFrom (n : Nat) (l : List α) :
    (List.enumFrom n l).Pairwise (fun a b => a.1 < b.1) := by
  induction l generalizing n with
  | nil => simp [List.enumFrom]
  | cons x t ih =>
    refine List.pairwise_cons.mpr ⟨?_, ih (n + 1)⟩
    intro b hb
    exact Nat.lt_of_succ_le (le_fst_of_mem_enumFrom hb)

theorem rerank_hybrid_eq (l : List Candidate) : rerank "hybrid" l = py_sorted hybrid_lt l := by
  unfold rerank
  rw [if_neg (by decide), if_neg (by decide)]

/-- Spec-side (§4.4): price order with absence treated as plus-infinity. -/
def spec_price_le (x y : Option ℚ) : Bool :=
  match x, y with
  | _, none => true
  | none, some _ => false
  | some p, some q => decide (p ≤ q)

/-- Spec-side (§4.4): non-strict lexicographic order on the claimed
composite key `(distance, -rating, price with absence = +infinity)`. -/
def spec_hybrid_le (a b : Candidate) : Bool :=
  decide (a.dist < b.dist) ||
    (decide (a.dist = b.dist) &&
      (decide (-a.rating < -b.rating) ||
        (decide (-a.rating = -b.rating) && spec_price_le a.price b.price)))

/-- Spec-side (§4.4): consecutive-pair sortedness under the claimed key. -/
def spec_hybrid_sorted : List Candidate → Bool
  | [] => true
  | [_] => true
  | a :: b :: t => spec_hybrid_le a b && spec_hybrid_sorted (b :: t)

/-- Priced above the 1e9 sentinel. -/
def c7_a : Candidate :=
  { id := "a", title := "ta", price := some 2000000000, rating := 0, brand := "",
    subcategory := "", category := "", features := "", ingredients := "",
    product_url := "", image_url := "", doc_id := "products::a", dist := 0 }

/-- Same distance and rating, absent price. -/
def c7_b : Candidate :=
  { id := "b", title := "tb", price := none, rating := 0, brand := "",
    subcategory := "", category := "", features := "", ingredients := "",
    product_url := "", image_url := "", doc_id := "products::b", dist := 0 }

/-- C7 counterexample: the claim says an absent price sorts as
plus-infinity, i.e. last; the code substitutes the literal 1e9, so a
candidate priced 2e9 is ranked after the absent-price one and the output
is not ascending under the claimed key. -/
theorem C7_counterexample :
    rerank "hybrid" [c7_a, c7_b] = [c7_b, c7_a] ∧
      spec_hybrid_sorted (rerank "hybrid" [c7_a, c7_b]) = false := by
  decide

/-- C7 (amended): the default hybrid ranking is the stable ascending sort
by the composite key `(distance, -rating, price with absence replaced by
the sentinel 1e9)`: tagging candidates with their retrieval positions,
the output is pairwise ordered by "strictly smaller key, or equal key
and smaller original position", and it is a permutation of the input. -/
theorem C7_hybrid_sort_stable (l : List Candidate) :
    rerank "hybrid" l = (hybrid_sorted_idx l.enum).map Prod.snd ∧
      (hybrid_sorted_idx l.enum).Pairwise stable_key_lt ∧
      (rerank "hybrid" l).Perm l := by
  refine ⟨?_, ?_, ?_⟩
  · rw [rerank_hybrid_eq, hybrid_sorted_idx, map_py_sorted Prod.snd hybrid_lt,
      List.enum_map_snd]
  · exact pairwise_hybrid_sorted_idx _ (pairwise_fst_lt_enumFrom 0 l)
  · rw [rerank_hybrid_eq]
    exact perm_py_sorted hybrid_lt l

/-!  Membership and id facts about `search_products` / `mcp_rag_search`
for C1, C6 and C9. -/

theorem price_of_row_passes {b : ℚ} {price : Option ℚ}
    (h : row_passes_price (some b) price = true) :
    ∃ pr, price = some pr ∧ 0 ≤ pr ∧ pr ≤ b := by
  cases price with
  | none => simp [row_passes_price] at h
  | some pr =>
    simp only [row_passes_price, Bool.and_eq_true, Bool.not_eq_true',
      decide_eq_false_iff_not, not_lt] at h
    exact ⟨pr, rfl, h.1, h.2⟩

theorem mem_build_candidates {max_price : Option ℚ} {brand sf : Option String}
    {rows : List RawHit} {c : Candidate}
    (h : c ∈ build_candidates max_price brand sf rows) :
    ∃ row ∈ rows, c = mk_candidate row ∧ row_passes_price max_price row.price = true := by
  rw [build_candidates, List.mem_filterMap] at h
  obtain ⟨row, hrow, hf⟩ := h
  by_cases hg : (row_passes_price max_price row.price
      && row_passes_sub brand (row.brand.getD "")
      && row_passes_sub sf (row.subcategory.getD "")) = true
  · refine ⟨row, hrow, ?_, ?_⟩
    · rw [if_pos hg] at hf
      exact (Option.some_inj.mp hf).symm
    · exact ((Bool.and_eq_true _ _).mp ((Bool.and_eq_true _ _).mp hg).1).1
  · rw [if_neg hg] at hf
    exact absurd hf (by simp)

theorem rerank_perm (sort_by : String) (l : List Candidate) : (rerank sort_by l).Perm l := by
  unfold rerank
  split
  · exact perm_py_sorted _ l
  · split
    · exact perm_py_sorted _ l
    · exact perm_py_sorted _ l

theorem mem_search_products {rows : List RawHit} {k : Nat} {max_price : Option ℚ}
    {brand sf : Option String} {sort_by : String} {p : Product}
    (h : p ∈ search_products rows k max_price brand sf sort_by) :
    ∃ c ∈ build_candidates max_price brand sf rows, p = to_product c := by
  rw [search_products] at h
  by_cases he : (build_candidates max_price brand sf rows).isEmpty = true
  · rw [if_pos he] at h
    exact absurd h (by simp)
  · rw [if_neg he] at h
    obtain ⟨c, hc, hcp⟩ := List.mem_map.mp h
    refine ⟨c, ?_, hcp.symm⟩
    exact (rerank_perm sort_by _).subset (List.mem_of_mem_take hc)

/-- C1: with an active budget `B`, every product returned by the MCP
retrieval endpoint carries a present price `pr` with `0 ≤ pr ≤ B` —
candidates with an absent, negative, or above-budget price were
excluded by `search_products`. -/
theorem C1_budget_ceiling (rows : List RawHit) (B : ℚ) (brand category : Option String)
    (k : Nat) (p : Product) (hp : p ∈ mcp_rag_search rows (some B) brand category k) :
    ∃ pr, p.price = some pr ∧ 0 ≤ pr ∧ pr ≤ B := by
  rw [mcp_rag_search] at hp
  have hp2 := (List.mem_filter.mp (List.mem_of_mem_take hp)).1
  obtain ⟨c, hc, rfl⟩ := mem_search_products hp2
  obtain ⟨row, _, rfl, hpass⟩ := mem_build_candidates hc
  obtain ⟨pr, heq, h0, hb⟩ := price_of_row_passes hpass
  exact ⟨pr, heq, h0, hb⟩

/-- A concrete in-budget catalog row. -/
def wit_row : RawHit :=
  { pid := "p1", title := some "toy car", price := some 10, rating := some 4,
    brand := some "acme", subcategory := some "cars", category := some "toys",
    features := some "", ingredients := some "", product_url := some "",
    image_url := some "", dist := 0 }

/-- The product the pipeline builds from `wit_row`. -/
def wit_prod : Product := to_product (mk_candidate wit_row)

theorem C1_budget_ceiling_witness :
    ∃ pr, wit_prod.price = some pr ∧ 0 ≤ pr ∧ pr ≤ 15 :=
  C1_budget_ceiling [wit_row] 15 none none 1 wit_prod (by decide)

theorem ids_build_candidates_sublist (max_price : Option ℚ) (brand sf : Option String)
    (rows : List RawHit) :
    List.Sublist ((build_candidates max_price brand sf rows).map (fun c => c.id))
      (rows.map (fun r => r.pid)) := by
  induction rows with
  | nil => simp [build_candidates]
  | cons row t ih =>
    by_cases hg : (row_passes_price max_price row.price
        && row_passes_sub brand (row.brand.getD "")
        && row_passes_sub sf (row.subcategory.getD "")) = true
    · simp only [build_candidates, List.filterMap_cons, hg, if_true, List.map_cons]
      exact List.Sublist.cons₂ row.pid ih
    · rw [Bool.not_eq_true] at hg
      simp only [build_candidates, List.filterMap_cons, hg, if_false, List.map_cons]
      exact List.Sublist.cons row.pid ih

theorem ids_map_to_product (l : List Candidate) :
    ((l.map to_product).map (fun p => p.id)) = l.map (fun c => c.id) := by
  induction l with
  | nil => rfl
  | cons c t ih => simp [to_product, ih]

theorem ids_search_products_nodup {rows : List RawHit} (k : Nat) (max_price : Option ℚ)
    (brand sf : Option String) (sort_by : String)
    (h : (rows.map (fun r => r.pid)).Nodup) :
    ((search_products rows k max_price brand sf sort_by).map (fun p => p.id)).Nodup := by
  rw [search_products]
  by_cases he : (build_candidates max_price brand sf rows).isEmpty = true
  · rw [if_pos he]; simp
  · rw [if_neg he]
    rw [ids_map_to_product]
    have h1 : ((build_candidates max_price brand sf rows).map (fun c => c.id)).Nodup :=
      h.sublist (ids_build_candidates_sublist max_price brand sf rows)
    have h2 : ((rerank sort_by (build_candidates max_price brand sf rows)).map
        (fun c => c.id)).Nodup :=
      (((rerank_perm sort_by _).map (fun c => c.id)).nodup_iff).mpr h1
    have hsub : List.Sublist
        (((rerank sort_by (build_candidates max_price brand sf rows)).take k).map
          (fun c => c.id))
        ((rerank sort_by (build_candidates max_price brand sf rows)).map (fun c => c.id)) :=
      List.Sublist.map (fun c => c.id)
        (List.take_sublist k (rerank sort_by (build_candidates max_price brand sf rows)))
    exact h2.sublist hsub

/-- C9: if the vector index returns pairwise-distinct ids (a guarantee of
the Chroma collection), the list the MCP retrieval endpoint returns has
length at most the requested `max_results` and contains no two entries
with the same id. -/
theorem C9_topk_nodup (rows : List RawHit) (budget : Option ℚ) (brand category : Option String)
    (k : Nat) (h : (rows.map (fun r => r.pid)).Nodup) :
    (mcp_rag_search rows budget brand category k).length ≤ k ∧
      ((mcp_rag_search rows budget brand category k).map (fun p => p.id)).Nodup := by
  constructor
  · exact List.length_take_le k _
  · have h1 := ids_search_products_nodup (k * 5) budget none none "hybrid" h
    have h2 : (((search_products rows (k * 5) budget none none "hybrid").filter
        (fun p => keep_by_brand brand p && keep_by_category category p)).map
        (fun p => p.id)).Nodup :=
      h1.sublist (List.Sublist.map (fun p => p.id)
        (List.filter_sublist (search_products rows (k * 5) budget none none "hybrid")))
    exact h2.sublist (List.Sublist.map (fun p => p.id)
      (List.take_sublist k ((search_products rows (k * 5) budget none none "hybrid").filter
        (fun p => keep_by_brand brand p && keep_by_category category p))))

/-- A second distinct catalog row. -/
def wit_row2 : RawHit :=
  { pid := "p2", title := some "toy boat", price := some 12, rating := some 3,
    brand := some "acme", subcategory := some "boats", category := some "toys",
    features := some "", ingredients := some "", product_url := some "",
    image_url := some "", dist := 1 }

theorem C9_topk_nodup_witness :
    (mcp_rag_search [wit_row, wit_row2] none none none 2).length ≤ 2 ∧
      ((mcp_rag_search [wit_row, wit_row2] none none none 2).map (fun p => p.id)).Nodup :=
  C9_topk_nodup [wit_row, wit_row2] none none none 2 (by decide)

/-- A catalog row whose absent price was stored as the `-1.0` sentinel by
`build_index_from_clean_df`. -/
def sentinel_row : RawHit :=
  { pid := "p1", title := some "mystery toy", price := some (-1), rating := some (-1),
    brand := some "", subcategory := some "", category := some "",
    features := some "", ingredients := some "", product_url := some "",
    image_url := some "", dist := 0 }

/-- C6: the absent-price sentinel `-1.0` stored in the index leaks to the
caller whenever no budget constraint is active — the endpoint returns a
product whose price is the negative magic number `-1` instead of a null,
contradicting both the invariant and the code's own docstring ("removed
all -1 placeholder outputs"). -/
theorem C6_sentinel_price_leak :
    (mcp_rag_search [sentinel_row] none none none 1).map (fun p => p.price) = [some (-1)] ∧
      (search_products [sentinel_row] 5 none none none "hybrid").map (fun p => p.price) =
        [some (-1)] := by
  decide

/-!  Pipeline-level claims C2, C5, C8. -/

/-- The `initial_state` dictionary of `assistant_graph.py`. -/
def initial_state : PState :=
  { query := "", intent := empty_intent, constraints := no_constraints, plan := empty_plan,
    rag_results := [], web_results := [], final_answer := "", products := [] }

/-- `run_pipeline` seeds a fresh state with the query. -/
def run_query_state (q : String) : PState := { initial_state with query := q }

/-- Spec-side (§4.2): the deterministic default plan the spec prescribes
on a malformed planner output. -/
def spec_default_plan : PlanD :=
  { tools := ["rag.search"], fields_needed := [], conflict_policy := some "PreferCatalog",
    err := none }

/-- A routed product-query state. -/
def c2_state : PState :=
  { initial_state with
      query := "recommend a lego set"
      intent := ⟨some "product_query", some "lego set", some no_constraints, some false⟩ }

/-- C2 counterexample: on an unparsable planner output the code stores
the error record — not the spec's default plan — so its tool list is
empty and the retriever performs zero catalog-search calls, where the
claim demands a fallback `{catalog_search}` plan and a retrieval call. -/
theorem C2_counterexample :
    (planner_node c2_state none).1.plan = error_plan ∧
      (planner_node c2_state none).1.plan ≠ spec_default_plan ∧
      (retriever_node (planner_node c2_state none).1 [] []).2.rag = 0 := by
  decide

/-- C2 (amended): an unparsable planner output degrades to the error
record with an empty tool list; the retriever then performs no retrieval
call at all and passes the state through, and the answerer — seeing no
RAG results — returns the empty-products apology without any model
call.  Retrieval IS blocked by a malformed plan. -/
theorem C2_malformed_plan_blocks_retrieval (s : PState) (rag_resp : List Product)
    (web_resp : List WebResult) (ans : String)
    (hit : s.intent.intent_type = some "product_query") (hrag : s.rag_results = []) :
    (planner_node s none).1.plan = error_plan ∧
      retriever_node (planner_node s none).1 rag_resp web_resp =
        ((planner_node s none).1, no_calls) ∧
      (answerer_node (retriever_node (planner_node s none).1 rag_resp web_resp).1 ans).1.products
          = [] ∧
      (answerer_node (retriever_node (planner_node s none).1 rag_resp web_resp).1
          ans).1.final_answer = no_results_text ∧
      (answerer_node (retriever_node (planner_node s none).1 rag_resp web_resp).1 ans).2
          = no_calls := by
  have hs1 : (planner_node s none).1 = { s with plan := error_plan } := by
    simp [planner_node, hit]
  have hit1 : (planner_node s none).1.intent.intent_type = some "product_query" := by
    rw [hs1]; exact hit
  have hplan : (planner_node s none).1.plan = error_plan := by rw [hs1]
  have hretr : retriever_node (planner_node s none).1 rag_resp web_resp =
      ((planner_node s none).1, no_calls) := by
    simp [retriever_node, hit1, hplan, error_plan, no_calls, List.contains]
  have hrag1 : (planner_node s none).1.rag_results = [] := by rw [hs1]; exact hrag
  have hans : answerer_node (planner_node s none).1 ans =
      ({ (planner_node s none).1 with products := [], final_answer := no_results_text },
        no_calls) := by
    rw [answerer_node, if_neg (by simp [hit1]), if_pos (by simp [hrag1])]
  refine ⟨hplan, hretr, ?_, ?_, ?_⟩ <;> rw [hretr] <;> rw [hans]

theorem C2_malformed_plan_witness :
    (planner_node c2_state none).1.plan = error_plan ∧
      retriever_node (planner_node c2_state none).1 [] [] =
        ((planner_node c2_state none).1, no_calls) ∧
      (answerer_node (retriever_node (planner_node c2_state none).1 [] []).1 "x").1.products
          = [] ∧
      (answerer_node (retriever_node (planner_node c2_state none).1 [] []).1
          "x").1.final_answer = no_results_text ∧
      (answerer_node (retriever_node (planner_node c2_state none).1 [] []).1 "x").2
          = no_calls :=
  C2_malformed_plan_blocks_retrieval c2_state [] [] "x" (by decide) (by decide)

/-- Spec-side (C8): case-insensitive exact or plain-prefix match against
the greeting lexicon — the claim's reading, with no comma required
after the greeting. -/
def spec_greeting_match (q : String) : Bool :=
  let lq := py_lower (py_strip q.data)
  simple_greetings.any (fun g => lq == g.data || g.data.isPrefixOf lq)

/-- A fresh request whose query starts with a greeting word. -/
def hello_there_state : PState := { initial_state with query := "hello there" }

/-- C8 counterexample: "hello there" matches the lexicon entry "hello" as
a case-insensitive prefix, so the claim demands the fast path with zero
model calls; the code's fast path requires the greeting to be exact or
followed by a comma, misses, and invokes the classifier model once. -/
theorem C8_counterexample :
    spec_greeting_match "hello there" = true ∧
      greeting_fast_match "hello there" = false ∧
      (router_node hello_there_state (some greeting_intent)).2.llm = 1 := by
  decide

/-- C8 (amended): for every query whose stripped, lowercased text equals
a lexicon greeting or starts with that greeting followed by a comma, the
router takes the fast path: Greeting intent, the fixed greeting answer,
an empty product list, and zero external calls. -/
theorem C8_greeting_fast_path (s : PState) (llm_resp : Option IntentD)
    (h : greeting_fast_match s.query = true) :
    router_node s llm_resp =
      ({ s with intent := greeting_intent, final_answer := greeting_text, products := [] },
        no_calls) := by
  rw [router_node.eq_def, if_pos h]

/-- A fresh request with the exact query "hello". -/
def hello_state : PState := { initial_state with query := "hello" }

theorem C8_greeting_fast_path_witness :
    router_node hello_state none =
      ({ hello_state with
          intent := greeting_intent
          final_answer := greeting_text
          products := [] }, no_calls) :=
  C8_greeting_fast_path hello_state none (by decide)

/-- Classifier contract (§6 and the router's instruction schema): a
successfully parsed response carries one of the two intent types the
schema defines. -/
def resp_wf (resp : Option IntentD) : Prop :=
  ∀ r, resp = some r →
    r.intent_type = some "greeting" ∨ r.intent_type = some "product_query"

/-- C5: when the routed intent is Greeting or OutOfDomain, the planner
and retriever pass the state through with zero calls, the answerer
performs no retrieval, merge, or synthesis call and only empties the
product list, the final answer is the fixed templated text the router
set, and the products list is empty. -/
theorem C5_short_circuit (s : PState) (resp : Option IntentD) (plan_resp : Option PlanD)
    (rag_resp : List Product) (web_resp : List WebResult) (ans : String)
    (hwf : resp_wf resp)
    (hrouted : (router_node s resp).1.intent.intent_type = some "greeting" ∨
      (router_node s resp).1.intent.intent_type = some "out_of_domain") :
    planner_node (router_node s resp).1 plan_resp = ((router_node s resp).1, no_calls) ∧
      retriever_node (router_node s resp).1 rag_resp web_resp =
        ((router_node s resp).1, no_calls) ∧
      answerer_node (router_node s resp).1 ans =
        ({ (router_node s resp).1 with products := [] }, no_calls) ∧
      ((router_node s resp).1.final_answer = greeting_text ∨
        (router_node s resp).1.final_answer = out_of_domain_text) ∧
      (answerer_node (router_node s resp).1 ans).1.final_answer =
        (router_node s resp).1.final_answer ∧
      (answerer_node (router_node s resp).1 ans).1.products = [] := by
  have hne : ¬ ((router_node s resp).1.intent.intent_type = some "product_query") := by
    rcases hrouted with h | h <;> rw [h] <;> simp
  have hplanner : planner_node (router_node s resp).1 plan_resp =
      ((router_node s resp).1, no_calls) := by
    rw [planner_node.eq_def, if_pos hne]
  have hretr : retriever_node (router_node s resp).1 rag_resp web_resp =
      ((router_node s resp).1, no_calls) := by
    rw [retriever_node, if_pos hne]
  have hans : answerer_node (router_node s resp).1 ans =
      ({ (router_node s resp).1 with products := [] }, no_calls) := by
    rw [answerer_node, if_pos hrouted]
  have hfa : (router_node s resp).1.final_answer = greeting_text ∨
      (router_node s resp).1.final_answer = out_of_domain_text := by
    by_cases hfast : greeting_fast_match s.query = true
    · left
      simp [router_node, hfast]
    · rw [Bool.not_eq_true] at hfast
      cases resp with
      | none =>
        exfalso
        have hooe : out_of_domain_check empty_intent = false := by decide
        have hei : empty_intent.intent_type = none := rfl
        have hint : (router_node s none).1.intent = empty_intent := by
          simp [router_node, hfast, hooe, hei]
        rcases hrouted with h | h <;> rw [hint] at h <;> simp [empty_intent] at h
      | some rr =>
        rcases hwf rr rfl with hg | hp
        · left
          simp [router_node, hfast, hg]
        · by_cases hood : out_of_domain_check rr = true
          · right
            simp [router_node, hfast, hp, hood]
          · exfalso
            rw [Bool.not_eq_true] at hood
            have hint : (router_node s (some rr)).1.intent = rr := by
              simp [router_node, hfast, hp, hood]
            rcases hrouted with h | h <;> rw [hint, hp] at h <;> simp at h
  exact ⟨hplanner, hretr, hans, hfa, by rw [hans], by rw [hans]⟩

theorem C5_short_circuit_witness :
    planner_node (router_node hello_state none).1 none =
        ((router_node hello_state none).1, no_calls) ∧
      retriever_node (router_node hello_state none).1 [] [] =
        ((router_node hello_state none).1, no_calls) ∧
      answerer_node (router_node hello_state none).1 "x" =
        ({ (router_node hello_state none).1 with products := [] }, no_calls) ∧
      ((router_node hello_state none).1.final_answer = greeting_text ∨
        (router_node hello_state none).1.final_answer = out_of_domain_text) ∧
      (answerer_node (router_node hello_state none).1 "x").1.final_answer =
        (router_node hello_state none).1.final_answer ∧
      (answerer_node (router_node hello_state none).1 "x").1.products = [] :=
  C5_short_circuit hello_state none none [] [] "x" (fun r h => nomatch h)
    (Or.inl (by decide))
